import Mathlib

/-!
Verification development for the `excel_MVP` repository.

The definitions below are a shallow embedding of the front-end core in
`src/frontend/taskpane/components/ModelChat.tsx` (snapshot extraction,
action execution, column-letter decoding, agent-mode gating) and of the
`ErrorItem` finding type in the `ErrorChecker` component.  Host grid
behaviour (the Office.js range object) is modelled explicitly as a grid
of cells addressed in A1 notation; queued writes become visible only at
the synchronization barrier (`context.sync`), mirroring the proxy-object
batching discipline of the host API.
-/

namespace ExcelMVP

/-- A JavaScript value as it appears in the 2-D `values` arrays exchanged
with the grid host: `null`, a number, a string, or a boolean. -/
inductive CellValue where
  | jsNull : CellValue
  | num : Int → CellValue
  | str : String → CellValue
  | bool : Bool → CellValue
deriving DecidableEq, Repr

/-- Embeds `colToNum` from `executeActions` in `ModelChat.tsx`:
`num = num * 26 + (col.charCodeAt(i) - 64)` folded over the characters,
starting at 0.  JavaScript arithmetic on these small values is exact, so
the accumulator is an integer. -/
def colToNum (col : String) : Int :=
  col.data.foldl (fun num c => num * 26 + ((c.toNat : Int) - 64)) 0

/-- The fold underlying `colToNum`, on a character list. -/
def colToNumList (cs : List Char) : Int :=
  cs.foldl (fun num c => num * 26 + ((c.toNat : Int) - 64)) 0

/-- Modelled from the spec: the standard 1-indexed base-26 column-letter
encoding ("A"=1 … "Z"=26, "AA"=27 …), which the repository itself does not
implement (it only decodes).  Written with structural fuel so that it
evaluates by `decide`; `numToCol` supplies fuel `n`, which always
suffices because the recursive argument `(n-1)/26` shrinks. -/
def numToColAux : Nat → Nat → List Char
  | 0, _ => []
  | _ + 1, 0 => []
  | fuel + 1, n + 1 => numToColAux fuel (n / 26) ++ [Char.ofNat (n % 26 + 65)]

/-- Modelled from the spec: standard column-letter encoding of a 1-based
column number. -/
def numToCol (n : Nat) : String :=
  ⟨numToColAux n n⟩

/-- Uppercase-letter test, mirroring the character class `[A-Z]`. -/
def isUpperAZ (c : Char) : Bool :=
  65 ≤ c.toNat && c.toNat ≤ 90

/-- Decimal-digit test, mirroring the character class `\d`. -/
def isDigit09 (c : Char) : Bool :=
  48 ≤ c.toNat && c.toNat ≤ 57

/-- First maximal run of characters satisfying `p`, or `none` when no
character matches: the semantics of `s.match(/p+/)` returning its first
(and in the code, only used) capture, with `none` standing for the
`null` result that makes the subsequent `[0]` access throw. -/
def firstRun (p : Char → Bool) : List Char → Option (List Char)
  | [] => none
  | c :: cs => if p c then some (c :: cs.takeWhile p) else firstRun p cs

/-- `cell.match(/[A-Z]+/)[0]` — the first run of uppercase letters. -/
def matchLetters (s : String) : Option String :=
  (firstRun isUpperAZ s.data).map (fun cs => ⟨cs⟩)

/-- `cell.match(/\d+/)[0]` — the first run of decimal digits. -/
def matchDigits (s : String) : Option String :=
  (firstRun isDigit09 s.data).map (fun cs => ⟨cs⟩)

/-- `parseInt` applied to a pure digit run. -/
def parseIntDigits (s : String) : Nat :=
  s.data.foldl (fun n c => n * 10 + (c.toNat - 48)) 0

/-- JavaScript `String.prototype.split(':')` on the character list: split
at every colon (an empty input yields one empty part, `"a:"` yields two
parts, and so on). -/
def splitColonList : List Char → List (List Char)
  | [] => [[]]
  | c :: rest =>
    let r := splitColonList rest
    if c = ':' then [] :: r
    else (c :: r.headD []) :: r.tail

/-- `range.split(':')` as the executor uses it. -/
def jsSplitColon (s : String) : List String :=
  (splitColonList s.data).map (fun cs => ⟨cs⟩)

/-- Host-side interpretation of a cell address such as `"B2"`: 1-based
(row, column).  Follows the same letter-run/digit-run decomposition the
executor itself uses for range endpoints. -/
def parseCellRC (s : String) : Option (Nat × Nat) :=
  match matchLetters s, matchDigits s with
  | some letters, some digits => some (parseIntDigits digits, (colToNum letters).toNat)
  | _, _ => none

/-- Host-side interpretation of a range address (`getRange`): a colon-free
address denotes the single-cell rectangle, `"a:b"` the rectangle spanned
by its two endpoints.  Result `(r1, c1, r2, c2)`, 1-based. -/
def parseRange (s : String) : Option (Nat × Nat × Nat × Nat) :=
  match jsSplitColon s with
  | [a] => (parseCellRC a).map (fun rc => (rc.1, rc.2, rc.1, rc.2))
  | [a, b] =>
    match parseCellRC a, parseCellRC b with
    | some rc1, some rc2 => some (rc1.1, rc1.2, rc2.1, rc2.2)
    | _, _ => none
  | _ => none

/-- Membership of an absolute 1-based (row, column) in a rectangle. -/
def inRectB (rect : Nat × Nat × Nat × Nat) (r c : Nat) : Bool :=
  rect.1 ≤ r && r ≤ rect.2.2.1 && rect.2.1 ≤ c && c ≤ rect.2.2.2

/-- Format options carried by a `formatCell` action
(`action.format` in `ModelChat.tsx`): each field may be absent. -/
structure FormatOptions where
  bold : Option Bool
  numberFormat : Option String
  bgColor : Option String
  fontColor : Option String
deriving DecidableEq, Repr

/-- JavaScript truthiness of an optional string field: `undefined` and the
empty string are falsy, every other string is truthy. -/
def truthyStr : Option String → Bool
  | none => false
  | some s => s ≠ ""

/-- The mutation actions dispatched by `executeActions` in `ModelChat.tsx`
(the `action.type` discriminator values `setCellValue`, `setFormula`,
`setRangeValues`, `setRangeFormulas`, `clearRange`, `formatCell`). -/
inductive Action where
  | setCellValue (sheet cell : String) (value : CellValue)
  | setFormula (sheet cell : String) (formula : String)
  | setRangeValues (sheet range : String) (values : List (List CellValue))
  | setRangeFormulas (sheet range : String) (formulas : List (List String))
  | clearRange (sheet range : String)
  | formatCell (sheet cell : String) (format : FormatOptions)
deriving DecidableEq, Repr

/-- A write queued on the host proxy before the synchronization barrier:
`.values`/`.formulas` assignments, `range.clear('Contents')`, and the four
individual format-property assignments of the `formatCell` branch. -/
inductive Write where
  | values (sheet range : String) (values : List (List CellValue))
  | formulas (sheet range : String) (formulas : List (List String))
  | clearContents (sheet range : String)
  | setBold (sheet cell : String) (b : Bool)
  | setNumberFormat (sheet cell : String) (nf : String)
  | setFillColor (sheet cell : String) (color : String)
  | setFontColor (sheet cell : String) (color : String)
deriving DecidableEq, Repr

/-- The dimension check of the `setRangeValues` branch: the range address
is split on `":"`; only when that yields exactly two parts are expected
row/column counts computed (`endRow - startRow + 1`,
`colToNum(endCol) - colToNum(startCol) + 1`) and compared against
`values.length` and `values[0]?.length || 0`.  A `null` regex match makes
the `[0]` access throw a `TypeError`; a count mismatch throws the
`Dimension mismatch` error.  Any other shape of address skips the check. -/
def checkRangeDims (range : String) (vals : List (List CellValue)) :
    Except String Unit :=
  match jsSplitColon range with
  | [startCell, endCell] =>
    match matchLetters startCell, matchDigits startCell,
          matchLetters endCell, matchDigits endCell with
    | some startCol, some startRow, some endCol, some endRow =>
      let expectedRows : Int := (parseIntDigits endRow : Int) - parseIntDigits startRow + 1
      let expectedCols : Int := colToNum endCol - colToNum startCol + 1
      let actualRows : Int := vals.length
      let actualCols : Int := (vals.headD []).length
      if expectedRows ≠ actualRows ∨ expectedCols ≠ actualCols then
        Except.error ("Dimension mismatch: range " ++ range)
      else
        Except.ok ()
    | _, _, _, _ => Except.error "TypeError"
  | _ => Except.ok ()

/-- The conditional format-property assignments of the `formatCell` branch,
in source order: bold (only when truthy, and then always set to `true`),
number format, fill color, font color (each only when truthy). -/
def formatWrites (sheet cell : String) (f : FormatOptions) : List Write :=
  (if f.bold = some true then [Write.setBold sheet cell true] else []) ++
  (match f.numberFormat with
   | some nf => if nf = "" then [] else [Write.setNumberFormat sheet cell nf]
   | none => []) ++
  (match f.bgColor with
   | some color => if color = "" then [] else [Write.setFillColor sheet cell color]
   | none => []) ++
  (match f.fontColor with
   | some color => if color = "" then [] else [Write.setFontColor sheet cell color]
   | none => [])

/-- One iteration of the `for (const action of actions)` loop: either the
action throws synchronously (today only the `setRangeValues` dimension
check and its address parsing do), or it queues a list of writes on the
proxy.  Sheet/range resolution failures of the host surface only at the
barrier and are not synchronous throws of the loop body. -/
def applyAction : Action → Except String (List Write)
  | .setCellValue sheet cell v => Except.ok [Write.values sheet cell [[v]]]
  | .setFormula sheet cell f => Except.ok [Write.formulas sheet cell [[f]]]
  | .setRangeValues sheet range vals =>
    match checkRangeDims range vals with
    | .error e => Except.error e
    | .ok _ => Except.ok [Write.values sheet range vals]
  | .setRangeFormulas sheet range fs => Except.ok [Write.formulas sheet range fs]
  | .clearRange sheet range => Except.ok [Write.clearContents sheet range]
  | .formatCell sheet cell f => Except.ok (formatWrites sheet cell f)

/-- Whether an action throws synchronously inside the executor loop. -/
def actionThrows (a : Action) : Bool :=
  match applyAction a with
  | .error _ => true
  | .ok _ => false

/-- The error message an action throws (junk on non-throwing actions). -/
def actionError (a : Action) : String :=
  match applyAction a with
  | .error e => e
  | .ok _ => ""

/-- The writes an action queues (empty on throwing actions). -/
def actionWrites (a : Action) : List Write :=
  match applyAction a with
  | .error _ => []
  | .ok ws => ws

/-- The executor loop, carrying the index of the current action: returns
the writes queued so far, the indices of actions applied, and the first
failure (index and error).  Fail-fast: a throw abandons the rest of the
list, and the rethrown error aborts the whole `Excel.run` body. -/
def runActions (k : Nat) : List Action → List Write × List Nat × Option (Nat × String)
  | [] => ([], [], none)
  | a :: rest =>
    match applyAction a with
    | .error e => ([], [], some (k, e))
    | .ok ws =>
      let r := runActions (k + 1) rest
      (ws ++ r.1, k :: r.2.1, r.2.2)

/-- Outcome of one `executeActions` batch: the queued writes, the indices
of successfully applied actions, and the failure, if any. -/
structure ExecResult where
  queued : List Write
  applied : List Nat
  failed : Option (Nat × String)
deriving DecidableEq, Repr

/-- Embeds `executeActions` from `ModelChat.tsx` at the level of queued
writes: the loop body runs action by action from index 0. -/
def executeActions (actions : List Action) : ExecResult :=
  let r := runActions 0 actions
  { queued := r.1, applied := r.2.1, failed := r.2.2 }

/-- Whether `context.sync()` is reached: the line after the loop runs only
when no action threw. -/
def ExecResult.synced (r : ExecResult) : Bool :=
  r.failed.isNone

/-- One cell of the live document: contents (value/formula) and the
formatting attributes the repository reads and writes. -/
structure Cell where
  value : CellValue
  formula : Option String
  numberFormat : String
  bold : Bool
  fillColor : String
  fontColor : String
deriving DecidableEq, Repr

/-- A sheet: cells addressed by 1-based (row, column), as in A1 notation. -/
def Sheet := Nat → Nat → Cell

/-- The workbook: sheet name to sheet, `none` when absent. -/
def Grid := String → Option Sheet

/-- Replace one sheet of the workbook. -/
def updateGrid (g : Grid) (name : String) (s : Sheet) : Grid :=
  fun n => if n = name then some s else g n

/-- `range.clear('Contents')` on one cell: value and formula removed (the
host reads a cleared cell's value back as the empty string), formatting
untouched. -/
def clearCellContents (c : Cell) : Cell :=
  { c with value := CellValue.str "", formula := none }

/-- Committing one queued write at the synchronization barrier.  Writes
addressed to a missing sheet or an unparseable range raise host errors at
the barrier; no claim exercises that path, so they are modelled as
leaving the grid unchanged.  A `.values` write anchors its payload at the
top-left corner of the parsed range and overwrites value (clearing any
formula, as the host does); `.formulas` sets the formula; the format
writes set exactly one attribute on every cell of the (typically
single-cell) range. -/
def commitWrite (g : Grid) : Write → Grid
  | .values name range vals =>
    match parseRange range, g name with
    | some rect, some s =>
      updateGrid g name (fun r c =>
        if rect.1 ≤ r ∧ rect.2.1 ≤ c then
          match (vals.getD (r - rect.1) [])[c - rect.2.1]? with
          | some v => { s r c with value := v, formula := none }
          | none => s r c
        else s r c)
    | _, _ => g
  | .formulas name range fs =>
    match parseRange range, g name with
    | some rect, some s =>
      updateGrid g name (fun r c =>
        if rect.1 ≤ r ∧ rect.2.1 ≤ c then
          match (fs.getD (r - rect.1) [])[c - rect.2.1]? with
          | some f => { s r c with formula := some f }
          | none => s r c
        else s r c)
    | _, _ => g
  | .clearContents name range =>
    match parseRange range, g name with
    | some rect, some s =>
      updateGrid g name (fun r c =>
        if inRectB rect r c then clearCellContents (s r c) else s r c)
    | _, _ => g
  | .setBold name cell b =>
    match parseRange cell, g name with
    | some rect, some s =>
      updateGrid g name (fun r c =>
        if inRectB rect r c then { s r c with bold := b } else s r c)
    | _, _ => g
  | .setNumberFormat name cell nf =>
    match parseRange cell, g name with
    | some rect, some s =>
      updateGrid g name (fun r c =>
        if inRectB rect r c then { s r c with numberFormat := nf } else s r c)
    | _, _ => g
  | .setFillColor name cell color =>
    match parseRange cell, g name with
    | some rect, some s =>
      updateGrid g name (fun r c =>
        if inRectB rect r c then { s r c with fillColor := color } else s r c)
    | _, _ => g
  | .setFontColor name cell color =>
    match parseRange cell, g name with
    | some rect, some s =>
      updateGrid g name (fun r c =>
        if inRectB rect r c then { s r c with fontColor := color } else s r c)
    | _, _ => g

/-- The synchronization barrier: commits the queued writes in order. -/
def commitWrites (g : Grid) (ws : List Write) : Grid :=
  ws.foldl commitWrite g

/-- The document state visible after an `executeActions` batch: queued
writes become visible only if the barrier was reached; when any action
threw, the barrier never ran and the document is untouched. -/
def runBatchGrid (g : Grid) (actions : List Action) : Grid :=
  let r := executeActions actions
  if r.synced then commitWrites g r.queued else g

/-- The action-dispatch logic at the end of `sendMessage` in
`ModelChat.tsx`: when the parsed response carries a non-empty action list
and agent mode is on, `executeActions` runs; in read-only mode (or with
no actions) it is never invoked.  Returns the resulting document state
and whether the executor was invoked. -/
def sendMessageActions (agentMode : Bool) (actions : List Action) (g : Grid) :
    Grid × Bool :=
  if 0 < actions.length then
    if agentMode then (runBatchGrid g actions, true) else (g, false)
  else (g, false)

/-- The loaded used-range data of one sheet, as `extractModelSnapshot`
reads it: rectangular `values`/`formulas`/`numberFormat` arrays, the
host-reported counts and absolute 0-based offsets (`rowIndex`,
`columnIndex`), and the per-cell formatting reads issued lazily for
non-empty cells. -/
structure UsedRange where
  values : List (List CellValue)
  formulas : List (List String)
  numberFormat : List (List String)
  rowCount : Nat
  columnCount : Nat
  rowIndex : Nat
  columnIndex : Nat
  boldAt : Nat → Nat → Bool
  fontColorAt : Nat → Nat → String
  fillColorAt : Nat → Nat → String

/-- The sparse cell record pushed by `extractModelSnapshot`. -/
structure CellRecord where
  row : Nat
  col : Nat
  value : CellValue
  formula : Option String
  numberFormat : String
  bold : Bool
  fontColor : String
  fillColor : String
deriving DecidableEq, Repr

/-- `values[row][col]` of a used range. -/
def UsedRange.valueAt (u : UsedRange) (row col : Nat) : CellValue :=
  (u.values.getD row []).getD col CellValue.jsNull

/-- `formulas[row][col]` of a used range. -/
def UsedRange.formulaAt (u : UsedRange) (row col : Nat) : String :=
  (u.formulas.getD row []).getD col ""

/-- The `(value === "" || value === null)` emptiness test. -/
def emptyVal (v : CellValue) : Bool :=
  v = CellValue.str "" || v = CellValue.jsNull

/-- The record built for a non-empty cell at used-range-relative
(row, col): absolute coordinates are the used range's offsets plus the
relative position, and `formula || null` maps the empty string to
`none`. -/
def mkRecord (u : UsedRange) (row col : Nat) : CellRecord :=
  { row := u.rowIndex + row
    col := u.columnIndex + col
    value := u.valueAt row col
    formula := if u.formulaAt row col = "" then none else some (u.formulaAt row col)
    numberFormat := (u.numberFormat.getD row []).getD col ""
    bold := u.boldAt row col
    fontColor := u.fontColorAt row col
    fillColor := u.fillColorAt row col }

/-- Embeds the per-sheet loop of `extractModelSnapshot`: visit every
(row, col) of the used range in row-major order, skip cells whose value
and formula are both empty, and materialize a `CellRecord` (with the
lazily loaded formatting) for the rest. -/
def extractSheet (u : UsedRange) : List CellRecord :=
  (List.range u.rowCount).flatMap (fun row =>
    (List.range u.columnCount).filterMap (fun col =>
      if emptyVal (u.valueAt row col) && u.formulaAt row col = "" then none
      else some (mkRecord u row col)))

/-- The finding type consumed by the `ErrorChecker` component
(`ErrorItem` in the source): `type` is the union
`'formula' | 'circular' | 'missing' | 'inconsistent'` and `severity` is
`'critical' | 'warning'`. -/
inductive ErrorKind where
  | formula
  | circular
  | missing
  | inconsistent
deriving DecidableEq, Repr, Fintype

/-- The literal string of each `ErrorItem.type` union member. -/
def errorKindName : ErrorKind → String
  | .formula => "formula"
  | .circular => "circular"
  | .missing => "missing"
  | .inconsistent => "inconsistent"

/-- All members of the `type` union, in declaration order. -/
def errorKindAll : List ErrorKind :=
  [ErrorKind.formula, ErrorKind.circular, ErrorKind.missing, ErrorKind.inconsistent]

/-- `ErrorItem.severity` union. -/
inductive Severity where
  | critical
  | warning
deriving DecidableEq, Repr

/-- The `ErrorItem` interface of the `ErrorChecker` component. -/
structure ErrorItem where
  sheet : String
  cell : String
  type : ErrorKind
  severity : Severity
  message : String
deriving DecidableEq, Repr

/-- `navigateToError`: activates `worksheets.getItem(error.sheet)` and
selects `sheet.getRange(error.cell)` — the sheet and cell strings are
used literally. -/
def navigateTarget (e : ErrorItem) : String × String :=
  (e.sheet, e.cell)

/-- Example used range for concrete evaluation: a 4×4 used range starting
at A1 (zero-based offsets 0,0) whose only non-empty cells are B2 and D4. -/
def usedB2D4 : UsedRange :=
  { values :=
      [[CellValue.str "", CellValue.str "", CellValue.str "", CellValue.str ""],
       [CellValue.str "", CellValue.num 42, CellValue.str "", CellValue.str ""],
       [CellValue.str "", CellValue.str "", CellValue.str "", CellValue.str ""],
       [CellValue.str "", CellValue.str "", CellValue.str "", CellValue.num 7]]
    formulas := [["", "", "", ""], ["", "", "", ""], ["", "", "", ""], ["", "", "", ""]]
    numberFormat :=
      [["G", "G", "G", "G"], ["G", "G", "G", "G"],
       ["G", "G", "G", "G"], ["G", "G", "G", "G"]]
    rowCount := 4
    columnCount := 4
    rowIndex := 0
    columnIndex := 0
    boldAt := fun _ _ => false
    fontColorAt := fun _ _ => "#000000"
    fillColorAt := fun _ _ => "#FFFFFF" }

/-- Example sheet for concrete evaluation: every cell holds a number and
default formatting. -/
def sheetEx : Sheet := fun r c =>
  { value := CellValue.num (r + c)
    formula := some "=1+1"
    numberFormat := "General"
    bold := false
    fillColor := "#FFFFFF"
    fontColor := "#000000" }

/-- Example workbook with the single sheet `"Sheet1"`. -/
def gridEx : Grid := fun n => if n = "Sheet1" then some sheetEx else none

/-! ### Lemmas and claim theorems -/

theorem colToNum_eq_list (s : String) : colToNum s = colToNumList s.data := rfl

theorem colToNumList_append (xs : List Char) (c : Char) :
    colToNumList (xs ++ [c]) = colToNumList xs * 26 + ((c.toNat : Int) - 64) := by
  simp [colToNumList, List.foldl_append]

theorem char_ofNat_toNat : ∀ m : Nat, m < 26 → (Char.ofNat (m + 65)).toNat = m + 65 := by
  decide

theorem numToColAux_zero (fuel : Nat) : numToColAux fuel 0 = [] := by
  cases fuel <;> rfl

theorem numToColAux_correct :
    ∀ fuel n : Nat, 0 < n → n ≤ fuel → colToNumList (numToColAux fuel n) = (n : Int) := by
  intro fuel
  induction fuel with
  | zero => intro n h1 h2; omega
  | succ fuel ih =>
    intro n h1 h2
    obtain ⟨m, rfl⟩ : ∃ m, n = m + 1 := ⟨n - 1, by omega⟩
    show colToNumList (numToColAux fuel (m / 26) ++ [Char.ofNat (m % 26 + 65)]) = _
    rw [colToNumList_append, char_ofNat_toNat (m % 26) (Nat.mod_lt _ (by norm_num))]
    have hq : colToNumList (numToColAux fuel (m / 26)) = ((m / 26 : Nat) : Int) := by
      rcases Nat.eq_zero_or_pos (m / 26) with h | h
      · rw [h, numToColAux_zero]; simp [colToNumList]
      · exact ih (m / 26) h (by have := Nat.div_le_self m 26; omega)
    rw [hq]
    omega

/-- C6: column-letter decoding is total on column-letter strings and
implements 1-indexed base-26 positional encoding — `colToNum "A" = 1`,
`colToNum "Z" = 26`, `colToNum "AA" = 27` — and decoding the standard
column-letter encoding of any `n` in `1..10000` yields `n` back. -/
theorem colToNum_roundtrip :
    colToNum "A" = 1 ∧ colToNum "Z" = 26 ∧ colToNum "AA" = 27 ∧
    ∀ n : Nat, 1 ≤ n → n ≤ 10000 → colToNum (numToCol n) = (n : Int) := by
  refine ⟨by decide, by decide, by decide, ?_⟩
  intro n h1 _
  exact numToColAux_correct n n h1 le_rfl

/-- Witness for C6 at `n = 10000` (`numToCol 10000 = "NTP"`). -/
theorem colToNum_roundtrip_witness :
    1 ≤ 10000 ∧ 10000 ≤ 10000 ∧ colToNum (numToCol 10000) = (10000 : Int) :=
  ⟨by decide, by decide, colToNum_roundtrip.2.2.2 10000 (by decide) (by decide)⟩

theorem runActions_fail :
    ∀ (actions : List Action) (start k : Nat) (hk : k < actions.length),
      actionThrows (actions.get ⟨k, hk⟩) = true →
      (∀ j (hj : j < k), actionThrows (actions.get ⟨j, hj.trans hk⟩) = false) →
      runActions start actions =
        (((actions.take k).map actionWrites).flatten, List.range' start k,
          some (start + k, actionError (actions.get ⟨k, hk⟩))) := by
  intro actions
  induction actions with
  | nil => intro start k hk; simp at hk
  | cons a rest ih =>
    intro start k hk hthrow hok
    cases k with
    | zero =>
      cases hae : applyAction a with
      | error e =>
        simp [runActions, hae, actionError, List.get, List.range']
      | ok ws =>
        exfalso
        simp [List.get, actionThrows, hae] at hthrow
    | succ k =>
      have ha : actionThrows a = false := hok 0 (Nat.succ_pos k)
      cases hae : applyAction a with
      | error e => simp [actionThrows, hae] at ha
      | ok ws =>
        have hrec := ih (start + 1) k (Nat.succ_lt_succ_iff.mp hk)
          (by simpa using hthrow)
          (fun j hj => by simpa using hok (j + 1) (Nat.succ_lt_succ hj))
        have hstep : runActions start (a :: rest) =
            (ws ++ (runActions (start + 1) rest).1,
              start :: (runActions (start + 1) rest).2.1,
              (runActions (start + 1) rest).2.2) := by
          simp [runActions, hae]
        rw [hstep, hrec]
        have hw : actionWrites a = ws := by simp [actionWrites, hae]
        simp [List.range'_succ, hw, List.get, Nat.add_assoc, Nat.add_comm 1 k]

/-- C2 (confirmed): the executor applies actions in the order supplied and
is fail-fast — when the first synchronously-throwing action sits at index
`k`, every action with index `< k` has been applied (its writes queued, in
order), the failure is reported for index `k` with that action's error,
and no action with index `> k` is attempted; the barrier is never
reached. -/
theorem executor_fail_fast (actions : List Action) (k : Nat) (hk : k < actions.length)
    (hthrow : actionThrows (actions.get ⟨k, hk⟩) = true)
    (hok : ∀ j (hj : j < k), actionThrows (actions.get ⟨j, hj.trans hk⟩) = false) :
    (executeActions actions).applied = List.range k ∧
    (executeActions actions).queued = ((actions.take k).map actionWrites).flatten ∧
    (executeActions actions).failed = some (k, actionError (actions.get ⟨k, hk⟩)) ∧
    (executeActions actions).synced = false := by
  have h := runActions_fail actions 0 k hk hthrow hok
  refine ⟨?_, ?_, ?_, ?_⟩ <;>
    simp [executeActions, h, ExecResult.synced, List.range_eq_range']

/-- Witness for C2: the batch
`[setCellValue A1 1, setRangeValues A1:C2 (2×2 payload), setCellValue A2 2]`
fails at index 1 (dimension mismatch); action 0 is applied/queued, action
2 never attempted, the barrier skipped. -/
theorem executor_fail_fast_witness :
    (executeActions
        [Action.setCellValue "S" "A1" (CellValue.num 1),
         Action.setRangeValues "S" "A1:C2" [[CellValue.num 1, CellValue.num 2],
                                            [CellValue.num 3, CellValue.num 4]],
         Action.setCellValue "S" "A2" (CellValue.num 2)]).applied = [0] ∧
    (executeActions
        [Action.setCellValue "S" "A1" (CellValue.num 1),
         Action.setRangeValues "S" "A1:C2" [[CellValue.num 1, CellValue.num 2],
                                            [CellValue.num 3, CellValue.num 4]],
         Action.setCellValue "S" "A2" (CellValue.num 2)]).synced = false := by
  have h := executor_fail_fast
    [Action.setCellValue "S" "A1" (CellValue.num 1),
     Action.setRangeValues "S" "A1:C2" [[CellValue.num 1, CellValue.num 2],
                                        [CellValue.num 3, CellValue.num 4]],
     Action.setCellValue "S" "A2" (CellValue.num 2)]
    1 (by decide) (by rfl)
    (fun j hj => by
      have : j = 0 := by omega
      subst this; rfl)
  exact ⟨by rw [h.1]; rfl, h.2.2.2⟩

theorem runActions_none_iff :
    ∀ (actions : List Action) (start : Nat),
      (runActions start actions).2.2 = none ↔ ∀ a ∈ actions, actionThrows a = false := by
  intro actions
  induction actions with
  | nil => intro start; simp [runActions]
  | cons a rest ih =>
    intro start
    cases hae : applyAction a with
    | error e =>
      simp only [runActions, hae]
      constructor
      · intro h; cases h
      · intro h
        have := h a (List.mem_cons_self a rest)
        simp [actionThrows, hae] at this
    | ok ws =>
      simp only [runActions, hae]
      rw [ih (start + 1)]
      constructor
      · intro h b hb
        rcases List.mem_cons.mp hb with rfl | hb
        · simp [actionThrows, hae]
        · exact h b hb
      · intro h b hb
        exact h b (List.mem_cons_of_mem a hb)

/-- C8 (confirmed): the synchronization barrier (`context.sync`) runs
exactly when every action of the batch was applied successfully; if any
action throws while being applied, the barrier is never invoked, no
queued write is committed, and the visible document state is unchanged by
the batch. -/
theorem barrier_only_on_success (actions : List Action) (g : Grid) :
    ((executeActions actions).synced = true ↔ ∀ a ∈ actions, actionThrows a = false) ∧
    ((∃ a ∈ actions, actionThrows a = true) → runBatchGrid g actions = g) := by
  have hiff : (executeActions actions).synced = true ↔
      ∀ a ∈ actions, actionThrows a = false := by
    simp only [executeActions, ExecResult.synced, Option.isNone_iff_eq_none]
    exact runActions_none_iff actions 0
  refine ⟨hiff, fun ⟨a, ha, hthrow⟩ => ?_⟩
  have hsync : (executeActions actions).synced = false := by
    rcases h : (executeActions actions).synced with _ | _
    · rfl
    · exact absurd (hiff.mp h a ha) (by simp [hthrow])
  simp [runBatchGrid, hsync]

/-- Witness for C8: a one-action batch whose dimension check throws leaves
an explicit concrete grid untouched and skips the barrier. -/
theorem barrier_only_on_success_witness :
    runBatchGrid (fun _ => none)
        [Action.setRangeValues "S" "A1:C2" [[CellValue.num 7]]] = (fun _ => none) ∧
    ((executeActions [Action.setRangeValues "S" "A1:C2" [[CellValue.num 7]]]).synced
      = false) := by
  have h := barrier_only_on_success
    [Action.setRangeValues "S" "A1:C2" [[CellValue.num 7]]] (fun _ => none)
  refine ⟨h.2 ⟨_, List.mem_singleton_self _, by rfl⟩, ?_⟩
  rcases hs : (executeActions [Action.setRangeValues "S" "A1:C2"
      [[CellValue.num 7]]]).synced with _ | _
  · rfl
  · have := h.1.mp hs _ (List.mem_singleton_self _)
    exact absurd this (by decide)

/-- C4 (confirmed): `executeActions` is invoked only under the
caller-supplied agent-mode flag — for a response carrying a non-empty
action list, the executor runs when agent mode is on, and with agent mode
off the actions are never executed and the document state is untouched. -/
theorem agent_mode_gating (agentMode : Bool) (actions : List Action) (g : Grid)
    (h : 0 < actions.length) :
    ((sendMessageActions agentMode actions g).2 = true ↔ agentMode = true) ∧
    (agentMode = false → sendMessageActions agentMode actions g = (g, false)) := by
  cases agentMode <;> simp [sendMessageActions, h]

/-- Witness for C4: one pending action, agent mode off — nothing runs. -/
theorem agent_mode_gating_witness :
    sendMessageActions false [Action.clearRange "S" "A1"] (fun _ => none) =
      ((fun _ => none : Grid), false) :=
  (agent_mode_gating false [Action.clearRange "S" "A1"] (fun _ => none)
    (by decide)).2 rfl

theorem splitColonList_no_colon :
    ∀ cs : List Char, ':' ∉ cs → splitColonList cs = [cs] := by
  intro cs
  induction cs with
  | nil => intro _; rfl
  | cons c rest ih =>
    intro h
    have hc : ¬ c = ':' := fun hc => h (hc ▸ List.mem_cons_self c rest)
    have hr : ':' ∉ rest := fun hr => h (List.mem_cons_of_mem c hr)
    simp [splitColonList, hc, ih hr]

/-- C9 (confirmed): for a `setRangeValues` action whose range address
contains no colon, the dimension check is skipped entirely — the action
never throws and queues the payload write unchanged, whatever the
payload's shape. -/
theorem single_cell_no_dim_check (sheet range : String) (vals : List (List CellValue))
    (h : ':' ∉ range.data) :
    applyAction (Action.setRangeValues sheet range vals) =
      Except.ok [Write.values sheet range vals] := by
  have hsplit : jsSplitColon range = [range] := by
    simp [jsSplitColon, splitColonList_no_colon range.data h]
  simp [applyAction, checkRangeDims, hsplit]

/-- Witness for C9: cell address `"A1"` with a 2×2 payload is accepted
and queued without any dimension comparison. -/
theorem single_cell_no_dim_check_witness :
    applyAction (Action.setRangeValues "S" "A1"
        [[CellValue.num 1, CellValue.num 2], [CellValue.num 3, CellValue.num 4]]) =
      Except.ok [Write.values "S" "A1"
        [[CellValue.num 1, CellValue.num 2], [CellValue.num 3, CellValue.num 4]]] :=
  single_cell_no_dim_check "S" "A1"
    [[CellValue.num 1, CellValue.num 2], [CellValue.num 3, CellValue.num 4]]
    (by decide)

/-- C1 counterexample: a `setRangeFormulas` action whose 1×1 payload does
not match its 2×3 range address `A1:C2` is executed without any failure —
the payload is queued as-is, so range-shaped actions are not all
dimension-checked as the claim states. -/
theorem range_dims_counterexample :
    applyAction (Action.setRangeFormulas "Sheet1" "A1:C2" [["=A1"]]) =
      Except.ok [Write.formulas "Sheet1" "A1:C2" [["=A1"]]] := rfl

/-- C1 (amended): only `setRangeValues` is dimension-checked, and only
when its address splits on `":"` into exactly two parseable endpoints; in
that case execution throws exactly when the payload's outer length
differs from `endRow - startRow + 1` or its first-row length differs from
`colToNum endCol - colToNum startCol + 1`, and a throwing action queues
no write (so no cell is ever partially written: the batch's barrier is
skipped).  `setRangeFormulas` always queues its payload unchecked. -/
theorem range_dims_amended (sheet range sc ec scL scD ecL ecD : String)
    (vals : List (List CellValue))
    (hsplit : jsSplitColon range = [sc, ec])
    (h1 : matchLetters sc = some scL) (h2 : matchDigits sc = some scD)
    (h3 : matchLetters ec = some ecL) (h4 : matchDigits ec = some ecD) :
    ((∃ e, applyAction (Action.setRangeValues sheet range vals) = Except.error e) ↔
      ((parseIntDigits ecD : Int) - parseIntDigits scD + 1 ≠ (vals.length : Int) ∨
        colToNum ecL - colToNum scL + 1 ≠ ((vals.headD []).length : Int))) ∧
    (∀ ws, applyAction (Action.setRangeValues sheet range vals) = Except.ok ws →
      ws = [Write.values sheet range vals]) ∧
    (∀ g : Grid, (∃ e, applyAction (Action.setRangeValues sheet range vals) =
        Except.error e) →
      runBatchGrid g [Action.setRangeValues sheet range vals] = g) ∧
    (∀ sh rg fs, applyAction (Action.setRangeFormulas sh rg fs) =
      Except.ok [Write.formulas sh rg fs]) := by
  have hcd : checkRangeDims range vals =
      if (parseIntDigits ecD : Int) - parseIntDigits scD + 1 ≠ (vals.length : Int) ∨
          colToNum ecL - colToNum scL + 1 ≠ ((vals.headD []).length : Int) then
        Except.error ("Dimension mismatch: range " ++ range)
      else Except.ok () := by
    simp only [checkRangeDims, hsplit, h1, h2, h3, h4]
  have happly : applyAction (Action.setRangeValues sheet range vals) =
      if (parseIntDigits ecD : Int) - parseIntDigits scD + 1 ≠ (vals.length : Int) ∨
          colToNum ecL - colToNum scL + 1 ≠ ((vals.headD []).length : Int) then
        Except.error ("Dimension mismatch: range " ++ range)
      else Except.ok [Write.values sheet range vals] := by
    by_cases hc : (parseIntDigits ecD : Int) - parseIntDigits scD + 1 ≠
        (vals.length : Int) ∨
        colToNum ecL - colToNum scL + 1 ≠ ((vals.headD []).length : Int)
    · simp only [applyAction, hcd, if_pos hc]
    · simp only [applyAction, hcd, if_neg hc]
  refine ⟨?_, ?_, ?_, fun sh rg fs => rfl⟩
  · rw [happly]
    by_cases hc : (parseIntDigits ecD : Int) - parseIntDigits scD + 1 ≠
        (vals.length : Int) ∨
        colToNum ecL - colToNum scL + 1 ≠ ((vals.headD []).length : Int)
    · simp only [if_pos hc]
      exact ⟨fun _ => hc, fun _ => ⟨_, rfl⟩⟩
    · simp only [if_neg hc]
      constructor
      · intro ⟨e, he⟩; cases he
      · intro h; exact absurd h hc
  · intro ws hws
    rw [happly] at hws
    by_cases hc : (parseIntDigits ecD : Int) - parseIntDigits scD + 1 ≠
        (vals.length : Int) ∨
        colToNum ecL - colToNum scL + 1 ≠ ((vals.headD []).length : Int)
    · rw [if_pos hc] at hws; cases hws
    · rw [if_neg hc] at hws
      cases hws
      rfl
  · intro g ⟨e, he⟩
    have hthrow : actionThrows (Action.setRangeValues sheet range vals) = true := by
      simp [actionThrows, he]
    have := (runActions_none_iff [Action.setRangeValues sheet range vals] 0)
    have hsync : (executeActions [Action.setRangeValues sheet range vals]).synced
        = false := by
      simp only [executeActions, ExecResult.synced]
      rcases hn : (runActions 0 [Action.setRangeValues sheet range vals]).2.2 with
        _ | p
      · have := this.mp hn _ (List.mem_singleton_self _)
        rw [hthrow] at this; cases this
      · simp
    simp [runBatchGrid, hsync]

/-- Witness for C1's amended theorem: range `A1:C2` (2 rows × 3 columns)
with a 2×2 payload throws, and the same range with a 2×3 payload does
not. -/
theorem range_dims_amended_witness :
    (∃ e, applyAction (Action.setRangeValues "S" "A1:C2"
        [[CellValue.num 1, CellValue.num 2], [CellValue.num 3, CellValue.num 4]]) =
      Except.error e) ∧
    runBatchGrid (fun _ => none)
      [Action.setRangeValues "S" "A1:C2"
        [[CellValue.num 1, CellValue.num 2], [CellValue.num 3, CellValue.num 4]]] =
      (fun _ => none) := by
  have h := range_dims_amended "S" "A1:C2" "A1" "C2" "A" "1" "C" "2"
    [[CellValue.num 1, CellValue.num 2], [CellValue.num 3, CellValue.num 4]]
    (by rfl) (by rfl) (by rfl) (by rfl) (by rfl)
  have hmem : (∃ e, applyAction (Action.setRangeValues "S" "A1:C2"
      [[CellValue.num 1, CellValue.num 2], [CellValue.num 3, CellValue.num 4]]) =
      Except.error e) := h.1.mpr (by decide)
  exact ⟨hmem, h.2.2.1 (fun _ => none) hmem⟩

/-- C3 (confirmed): snapshot extraction materializes a `CellRecord`
exactly for the used-range cells whose value or formula is non-empty, and
every record carries absolute zero-based coordinates obtained by adding
the used range's row/column offsets to the cell's relative position (with
the lazily read formatting attached). -/
theorem extractSheet_spec (u : UsedRange) (r : CellRecord) :
    r ∈ extractSheet u ↔
      ∃ row col, row < u.rowCount ∧ col < u.columnCount ∧
        ¬(emptyVal (u.valueAt row col) = true ∧ u.formulaAt row col = "") ∧
        r = mkRecord u row col := by
  simp only [extractSheet, List.mem_flatMap, List.mem_filterMap, List.mem_range]
  constructor
  · intro ⟨row, hrow, col, hcol, hsome⟩
    by_cases hc : emptyVal (u.valueAt row col) = true ∧ u.formulaAt row col = ""
    · rw [if_pos (by simp [hc.1, hc.2])] at hsome
      cases hsome
    · rw [if_neg (by simpa [Bool.and_eq_true] using hc)] at hsome
      cases hsome
      exact ⟨row, col, hrow, hcol, hc, rfl⟩
  · intro ⟨row, col, hrow, hcol, hc, hr⟩
    refine ⟨row, hrow, col, hcol, ?_⟩
    rw [if_neg (by simpa [Bool.and_eq_true] using hc), hr]

/-- Witness for C3: the 4×4 used range with content only in B2 and D4
yields exactly the two records at absolute (1,1) and (3,3). -/
theorem extractSheet_spec_witness :
    extractSheet usedB2D4 = [mkRecord usedB2D4 1 1, mkRecord usedB2D4 3 3] ∧
    (mkRecord usedB2D4 1 1).row = 1 ∧ (mkRecord usedB2D4 1 1).col = 1 ∧
    (mkRecord usedB2D4 3 3).row = 3 ∧ (mkRecord usedB2D4 3 3).col = 3 ∧
    mkRecord usedB2D4 1 1 ∈ extractSheet usedB2D4 := by
  refine ⟨by rfl, rfl, rfl, rfl, rfl, ?_⟩
  exact (extractSheet_spec usedB2D4 (mkRecord usedB2D4 1 1)).mpr
    ⟨1, 1, by decide, by decide, by decide, rfl⟩

/-- C5 (confirmed): applying a `clearRange` action to an existing sheet
removes value and formula of exactly the cells of the addressed range
(the host reads them back empty), preserves every formatting attribute of
those cells, leaves cells outside the range unchanged, and leaves every
other sheet unchanged. -/
theorem clearRange_spec (g : Grid) (name range : String) (s : Sheet)
    (rect : Nat × Nat × Nat × Nat)
    (hs : g name = some s) (hr : parseRange range = some rect) :
    ∃ s2, runBatchGrid g [Action.clearRange name range] name = some s2 ∧
      (∀ r c, inRectB rect r c = true →
        (s2 r c).value = CellValue.str "" ∧ (s2 r c).formula = none ∧
        (s2 r c).bold = (s r c).bold ∧
        (s2 r c).numberFormat = (s r c).numberFormat ∧
        (s2 r c).fillColor = (s r c).fillColor ∧
        (s2 r c).fontColor = (s r c).fontColor) ∧
      (∀ r c, inRectB rect r c = false → s2 r c = s r c) ∧
      (∀ n2, n2 ≠ name → runBatchGrid g [Action.clearRange name range] n2 = g n2) := by
  have hbatch : runBatchGrid g [Action.clearRange name range] =
      commitWrite g (Write.clearContents name range) := by
    simp [runBatchGrid, executeActions, runActions, applyAction, ExecResult.synced,
      commitWrites]
  have hcommit : commitWrite g (Write.clearContents name range) =
      updateGrid g name (fun r c =>
        if inRectB rect r c then clearCellContents (s r c) else s r c) := by
    simp [commitWrite, hr, hs]
  refine ⟨fun r c => if inRectB rect r c then clearCellContents (s r c) else s r c,
    ?_, ?_, ?_, ?_⟩
  · rw [hbatch, hcommit]; simp [updateGrid]
  · intro r c h; simp [h, clearCellContents]
  · intro r c h; simp [h]
  · intro n2 hn2
    rw [hbatch, hcommit]
    simp [updateGrid, hn2]

/-- Witness for C5: clearing `B2:C3` on the example workbook empties cell
(2,2), keeps its formatting, and leaves cell (1,1) and other sheet names
untouched. -/
theorem clearRange_spec_witness :
    ∃ s2, runBatchGrid gridEx [Action.clearRange "Sheet1" "B2:C3"] "Sheet1" = some s2 ∧
      (s2 2 2).value = CellValue.str "" ∧ (s2 2 2).formula = none ∧
      (s2 2 2).numberFormat = (sheetEx 2 2).numberFormat ∧
      s2 1 1 = sheetEx 1 1 := by
  obtain ⟨s2, hrun, hin, hout, _⟩ :=
    clearRange_spec gridEx "Sheet1" "B2:C3" sheetEx (2, 2, 3, 3) rfl rfl
  obtain ⟨hv, hf, _, hnf, _, _⟩ := hin 2 2 (by decide)
  exact ⟨s2, hrun, hv, hf, hnf, hout 1 1 (by decide)⟩

theorem commitWrites_append (g : Grid) (l1 l2 : List Write) :
    commitWrites g (l1 ++ l2) = commitWrites (commitWrites g l1) l2 := by
  simp [commitWrites, List.foldl_append]

theorem updateGrid_self (g : Grid) (name : String) (s : Sheet) :
    updateGrid g name s name = some s := by
  simp [updateGrid]

theorem updateGrid_updateGrid (g : Grid) (name : String) (sa sb : Sheet) :
    updateGrid (updateGrid g name sa) name sb = updateGrid g name sb := by
  funext n
  by_cases hn : n = name <;> simp [updateGrid, hn]

theorem commitWrite_setBold (g : Grid) (name cAddr : String) (b : Bool)
    (rect : Nat × Nat × Nat × Nat) (s : Sheet)
    (hr : parseRange cAddr = some rect) (hs : g name = some s) :
    commitWrite g (Write.setBold name cAddr b) =
      updateGrid g name (fun r c =>
        if inRectB rect r c then { s r c with bold := b } else s r c) := by
  simp [commitWrite, hr, hs]

theorem commitWrite_setNumberFormat (g : Grid) (name cAddr nf : String)
    (rect : Nat × Nat × Nat × Nat) (s : Sheet)
    (hr : parseRange cAddr = some rect) (hs : g name = some s) :
    commitWrite g (Write.setNumberFormat name cAddr nf) =
      updateGrid g name (fun r c =>
        if inRectB rect r c then { s r c with numberFormat := nf } else s r c) := by
  simp [commitWrite, hr, hs]

theorem commitWrite_setFillColor (g : Grid) (name cAddr color : String)
    (rect : Nat × Nat × Nat × Nat) (s : Sheet)
    (hr : parseRange cAddr = some rect) (hs : g name = some s) :
    commitWrite g (Write.setFillColor name cAddr color) =
      updateGrid g name (fun r c =>
        if inRectB rect r c then { s r c with fillColor := color } else s r c) := by
  simp [commitWrite, hr, hs]

theorem commitWrite_setFontColor (g : Grid) (name cAddr color : String)
    (rect : Nat × Nat × Nat × Nat) (s : Sheet)
    (hr : parseRange cAddr = some rect) (hs : g name = some s) :
    commitWrite g (Write.setFontColor name cAddr color) =
      updateGrid g name (fun r c =>
        if inRectB rect r c then { s r c with fontColor := color } else s r c) := by
  simp [commitWrite, hr, hs]

theorem commitWrites_opt_single (g : Grid) (name : String) (s s2 : Sheet)
    (hs : g name = some s) (cond : Prop) [Decidable cond] (w : Write)
    (hw : commitWrite g w = updateGrid g name s2) :
    commitWrites g (if cond then [w] else []) =
      updateGrid g name (if cond then s2 else s) := by
  by_cases hc : cond
  · simp [commitWrites, if_pos hc, hw]
  · simp only [if_neg hc]
    show g = updateGrid g name s
    funext n
    by_cases hn : n = name <;> simp [updateGrid, hn, hs.symm]

theorem formatWrites_eq (sheet cell : String) (f : FormatOptions) :
    formatWrites sheet cell f =
      (if f.bold = some true then [Write.setBold sheet cell true] else []) ++
      ((if truthyStr f.numberFormat = true then
          [Write.setNumberFormat sheet cell (f.numberFormat.getD "")] else []) ++
       ((if truthyStr f.bgColor = true then
          [Write.setFillColor sheet cell (f.bgColor.getD "")] else []) ++
        (if truthyStr f.fontColor = true then
          [Write.setFontColor sheet cell (f.fontColor.getD "")] else []))) := by
  rcases f with ⟨b, nf, bg, fc⟩
  simp only [formatWrites, List.append_assoc]
  congr 1
  congr 1
  · cases nf with
    | none => rfl
    | some v => by_cases hv : v = "" <;> simp [truthyStr, hv]
  congr 1
  · cases bg with
    | none => rfl
    | some v => by_cases hv : v = "" <;> simp [truthyStr, hv]
  · cases fc with
    | none => rfl
    | some v => by_cases hv : v = "" <;> simp [truthyStr, hv]

/-- C10 (confirmed): each `formatCell` option is applied to the target
cell only when its value is truthy — a `bold` that is absent or
explicitly `false`, and an absent or empty `numberFormat`/`bgColor`/
`fontColor`, leave the corresponding formatting field unchanged.  When
bold is applied it is always set to `true`, so `formatCell` can set bold
but never clear it; value and formula are never touched. -/
theorem formatCell_spec (g : Grid) (name cAddr : String) (f : FormatOptions)
    (rect : Nat × Nat × Nat × Nat) (s : Sheet)
    (hs : g name = some s) (hr : parseRange cAddr = some rect) :
    ∃ s2, runBatchGrid g [Action.formatCell name cAddr f] name = some s2 ∧
      ∀ r c,
        (s2 r c).value = (s r c).value ∧
        (s2 r c).formula = (s r c).formula ∧
        (s2 r c).bold =
          (if f.bold = some true ∧ inRectB rect r c = true then true
            else (s r c).bold) ∧
        (s2 r c).numberFormat =
          (if truthyStr f.numberFormat = true ∧ inRectB rect r c = true then
            f.numberFormat.getD "" else (s r c).numberFormat) ∧
        (s2 r c).fillColor =
          (if truthyStr f.bgColor = true ∧ inRectB rect r c = true then
            f.bgColor.getD "" else (s r c).fillColor) ∧
        (s2 r c).fontColor =
          (if truthyStr f.fontColor = true ∧ inRectB rect r c = true then
            f.fontColor.getD "" else (s r c).fontColor) := by
  have hbatch : runBatchGrid g [Action.formatCell name cAddr f] =
      commitWrites g (formatWrites name cAddr f) := by
    simp [runBatchGrid, executeActions, runActions, applyAction, ExecResult.synced,
      commitWrites]
  have hs1eq := commitWrites_opt_single g name s
    (fun r c => if inRectB rect r c then { s r c with bold := true } else s r c)
    hs (f.bold = some true) (Write.setBold name cAddr true)
    (commitWrite_setBold g name cAddr true rect s hr hs)
  set s1 : Sheet := if f.bold = some true then
      (fun r c => if inRectB rect r c then { s r c with bold := true } else s r c)
    else s with hs1def
  have hs2eq := commitWrites_opt_single (updateGrid g name s1) name s1
    (fun r c =>
      if inRectB rect r c then { s1 r c with numberFormat := f.numberFormat.getD "" }
      else s1 r c)
    (updateGrid_self g name s1) (truthyStr f.numberFormat = true)
    (Write.setNumberFormat name cAddr (f.numberFormat.getD ""))
    (commitWrite_setNumberFormat (updateGrid g name s1) name cAddr
      (f.numberFormat.getD "") rect s1 hr (updateGrid_self g name s1))
  set s2 : Sheet := if truthyStr f.numberFormat = true then
      (fun r c =>
        if inRectB rect r c then { s1 r c with numberFormat := f.numberFormat.getD "" }
        else s1 r c)
    else s1 with hs2def
  have hs3eq := commitWrites_opt_single (updateGrid g name s2) name s2
    (fun r c =>
      if inRectB rect r c then { s2 r c with fillColor := f.bgColor.getD "" }
      else s2 r c)
    (updateGrid_self g name s2) (truthyStr f.bgColor = true)
    (Write.setFillColor name cAddr (f.bgColor.getD ""))
    (commitWrite_setFillColor (updateGrid g name s2) name cAddr
      (f.bgColor.getD "") rect s2 hr (updateGrid_self g name s2))
  set s3 : Sheet := if truthyStr f.bgColor = true then
      (fun r c =>
        if inRectB rect r c then { s2 r c with fillColor := f.bgColor.getD "" }
        else s2 r c)
    else s2 with hs3def
  have hs4eq := commitWrites_opt_single (updateGrid g name s3) name s3
    (fun r c =>
      if inRectB rect r c then { s3 r c with fontColor := f.fontColor.getD "" }
      else s3 r c)
    (updateGrid_self g name s3) (truthyStr f.fontColor = true)
    (Write.setFontColor name cAddr (f.fontColor.getD ""))
    (commitWrite_setFontColor (updateGrid g name s3) name cAddr
      (f.fontColor.getD "") rect s3 hr (updateGrid_self g name s3))
  set s4 : Sheet := if truthyStr f.fontColor = true then
      (fun r c =>
        if inRectB rect r c then { s3 r c with fontColor := f.fontColor.getD "" }
        else s3 r c)
    else s3 with hs4def
  have hfinal : commitWrites g (formatWrites name cAddr f) = updateGrid g name s4 := by
    rw [formatWrites_eq, commitWrites_append, hs1eq, commitWrites_append, hs2eq,
      updateGrid_updateGrid, commitWrites_append, hs3eq, updateGrid_updateGrid,
      hs4eq, updateGrid_updateGrid]
  refine ⟨s4, by rw [hbatch, hfinal, updateGrid_self], ?_⟩
  intro r c
  by_cases hc1 : f.bold = some true <;>
    by_cases hc2 : truthyStr f.numberFormat = true <;>
    by_cases hc3 : truthyStr f.bgColor = true <;>
    by_cases hc4 : truthyStr f.fontColor = true <;>
    by_cases hrc : inRectB rect r c = true <;>
    simp [hs1def, hs2def, hs3def, hs4def, hc1, hc2, hc3, hc4, hrc]

/-- Witness for C10: on the example workbook, a `formatCell` for `B2`
with `bold: false`, an empty `numberFormat`, no `bgColor`, and fontColor
`"#FF0000"` changes only the font color of cell (2,2). -/
theorem formatCell_spec_witness :
    ∃ s2, runBatchGrid gridEx
        [Action.formatCell "Sheet1" "B2"
          ⟨some false, some "", none, some "#FF0000"⟩] "Sheet1" = some s2 ∧
      (s2 2 2).bold = (sheetEx 2 2).bold ∧
      (s2 2 2).numberFormat = (sheetEx 2 2).numberFormat ∧
      (s2 2 2).fillColor = (sheetEx 2 2).fillColor ∧
      (s2 2 2).fontColor = "#FF0000" := by
  obtain ⟨s2, hrun, hpt⟩ := formatCell_spec gridEx "Sheet1" "B2"
    ⟨some false, some "", none, some "#FF0000"⟩ (2, 2, 2, 2) sheetEx rfl rfl
  obtain ⟨_, _, hb, hnf, hfc, hfo⟩ := hpt 2 2
  refine ⟨s2, hrun, ?_, ?_, ?_, ?_⟩
  · rw [hb, if_neg (by decide)]
  · rw [hnf, if_neg (by decide)]
  · rw [hfc, if_neg (by decide)]
  · rw [hfo, if_pos (by decide)]
    rfl

/-- C7 counterexample: the finding type's `kind` union has exactly four
members — `formula`, `circular`, `missing`, `inconsistent` — and none of
them is (or renders as) `dimension-mismatch`, so the claimed five-element
taxonomy does not match the code. -/
theorem finding_taxonomy_counterexample :
    errorKindAll.length = 4 ∧
    (∀ k : ErrorKind, k ∈ errorKindAll) ∧
    (∀ k : ErrorKind, errorKindName k ≠ "dimension-mismatch") := by
  refine ⟨rfl, ?_, ?_⟩ <;> decide

/-- C7 (amended): every finding carries a kind drawn from exactly the
FOUR-element taxonomy `{formula, circular, missing, inconsistent}`
(malformed-formula, circular-reference, missing-reference,
inconsistent-assumption; no dimension-mismatch kind exists) and a
severity drawn from `{critical, warning}`, together with the sheet name
and cell address that navigation uses literally. -/
theorem finding_taxonomy (e : ErrorItem) :
    e.type ∈ errorKindAll ∧
    (e.severity = Severity.critical ∨ e.severity = Severity.warning) ∧
    navigateTarget e = (e.sheet, e.cell) := by
  obtain ⟨sh, ce, t, sev, msg⟩ := e
  refine ⟨?_, ?_, rfl⟩
  · cases t <;> simp [errorKindAll]
  · cases sev <;> simp

/-- Witness for C7's amended theorem at a concrete finding. -/
theorem finding_taxonomy_witness :
    (ErrorItem.mk "Sheet1" "B2" ErrorKind.circular Severity.critical "cycle").type
        ∈ errorKindAll ∧
    navigateTarget
        (ErrorItem.mk "Sheet1" "B2" ErrorKind.circular Severity.critical "cycle") =
      ("Sheet1", "B2") :=
  ⟨(finding_taxonomy
      (ErrorItem.mk "Sheet1" "B2" ErrorKind.circular Severity.critical "cycle")).1,
    (finding_taxonomy
      (ErrorItem.mk "Sheet1" "B2" ErrorKind.circular Severity.critical "cycle")).2.2⟩

end ExcelMVP
